import Mathlib

/-!
Verification development for the `trace-status` traceability analyzer
(`src/scripts/trace-status.py`).  The Python source is shallowly embedded:
regex-driven text extraction becomes explicit scanning functions over
`List Char`, the `dict`-based corpus becomes an association list with
replace-or-append insertion, and exception handling becomes `Except`.
-/

abbrev Chars := List Char

/-- Python `\s` on ASCII input: space, tab, newline, carriage return,
vertical tab, form feed. -/
def isWs (c : Char) : Bool :=
  c = ' ' || c = '\t' || c = '\n' || c = '\r' || c = '\x0b' || c = '\x0c'

/-- `begMatch pat s` holds when `pat` is an initial segment of `s`
(the literal part of a regex matching at the current position). -/
def begMatch : Chars → Chars → Bool
  | [], _ => true
  | _ :: _, [] => false
  | a :: as, b :: bs => a = b && begMatch as bs

/-- `segIn pat s` holds when `pat` occurs contiguously somewhere in `s`
(Python's substring test `pat in s`). -/
def segIn (pat : Chars) : Chars → Bool
  | [] => begMatch pat []
  | s@(_ :: t) => begMatch pat s || segIn pat t

/-- Maximal leading run of characters satisfying `p`, with the remainder. -/
def runOf (p : Char → Bool) : Chars → Chars × Chars
  | [] => ([], [])
  | c :: t =>
    if p c then
      let (u, r) := runOf p t
      (c :: u, r)
    else ([], c :: t)

/-- Drop the maximal leading whitespace run (greedy `\s*` whose
continuation always succeeds, hence no backtracking). -/
def dropWsRun (s : Chars) : Chars := (runOf isWs s).2

/-- Lazy capture `(.*?)(?=PAT|\Z)` in DOTALL mode: everything up to the
first occurrence of `pat`, or the whole string when `pat` is absent. -/
def takeUntilSeg (pat : Chars) : Chars → Chars
  | [] => []
  | s@(c :: t) => if begMatch pat s then [] else c :: takeUntilSeg pat t

/-- Greedy `\s*\n` at the start of `s`: consume through the LAST newline
inside the maximal leading whitespace run; fails (`none`) when that run
contains no newline. -/
def wsThruLastNl : Chars → Option Chars
  | [] => none
  | c :: t =>
    if isWs c then
      match wsThruLastNl t with
      | some r => some r
      | none => if c = '\n' then some t else none
    else none

/-- Attempt of `## Links\s*\n(.*?)(?=\n##|\Z)` anchored at the current
position: literal heading, greedy whitespace ending in a newline, then the
lazy capture up to the next `\n##` or end of text. -/
def linksAt (s : Chars) : Option Chars :=
  if begMatch "## Links".toList s then
    match wsThruLastNl (s.drop 8) with
    | some r => some (takeUntilSeg "\n##".toList r)
    | none => none
  else none

/-- `re.search` for the Links-section pattern: leftmost position at which
the whole pattern matches. -/
def linksSearch : Chars → Option Chars
  | [] => none
  | s@(_ :: t) =>
    match linksAt s with
    | some r => some r
    | none => linksSearch t

/-- A category marker `BASE` optionally followed by `s`, then `:`
(e.g. `Requirements?:`). -/
structure Marker where
  base : String
  optS : Bool

/-- Attempt the marker at the current position; on success return the text
after the consumed literal (greedy `s?` tried first). -/
def markerAt (m : Marker) (s : Chars) : Option Chars :=
  if m.optS && begMatch (m.base.toList ++ ['s', ':']) s then
    some (s.drop (m.base.length + 2))
  else if begMatch (m.base.toList ++ [':']) s then
    some (s.drop (m.base.length + 1))
  else none

/-- Marker span `(.*?)(?=\n-|\n##|\Z)`: lazily up to the next list item
line, the next heading, or end of content. -/
def spanUntil : Chars → Chars
  | [] => []
  | s@(c :: t) =>
    if begMatch "\n-".toList s || begMatch "\n##".toList s then []
    else c :: spanUntil t

/-- `re.search` for `MARKER:\s*(.*?)(?=\n-|\n##|\Z)`: leftmost marker
occurrence, then greedy whitespace, then the lazy span. -/
def markerSearch (m : Marker) : Chars → Option Chars
  | [] => none
  | s@(_ :: t) =>
    match markerAt m s with
    | some r => some (spanUntil (dropWsRun r))
    | none => markerSearch m t

/-- `[0-9a-z]`. -/
def isLowAl (c : Char) : Bool := c.isDigit || c.isLower

/-- `[^/\s\]]`. -/
def isSlugChar (c : Char) : Bool := !(c = '/' || isWs c || c = ']')

/-- One attempt of the identifier regex
`[A-Z]+-[0-9a-z]{4,5}(?:-[^/\s\]]+)?|[A-Z]+-\d+` at the current position,
returning the matched token and the remainder after it. -/
def idTokenAt (s : Chars) : Option (Chars × Chars) :=
  let (u, r1) := runOf Char.isUpper s
  if u.isEmpty then none
  else
    match r1 with
    | '-' :: r2 =>
      let (d, _) := runOf isLowAl r2
      if 4 ≤ d.length then
        let n := min d.length 5
        let body := r2.take n
        let r3 := r2.drop n
        match r3 with
        | '-' :: r4 =>
          let (sl, r5) := runOf isSlugChar r4
          if sl.isEmpty then some (u ++ '-' :: body, r3)
          else some (u ++ '-' :: body ++ '-' :: sl, r5)
        | _ => some (u ++ '-' :: body, r3)
      else
        let (dg, r3) := runOf Char.isDigit r2
        if dg.isEmpty then none else some (u ++ '-' :: dg, r3)
    | _ => none

/-- `re.findall` driver: scan left to right, emit each non-overlapping
match and resume after it.  Fuel equals the input length; every step
consumes at least one character, so the fuel never runs out first. -/
def findIdsAux : Nat → Chars → List String
  | 0, _ => []
  | _ + 1, [] => []
  | fuel + 1, s@(_ :: t) =>
    match idTokenAt s with
    | some (tok, rest) => String.mk tok :: findIdsAux fuel rest
    | none => findIdsAux fuel t

/-- All identifier tokens in a marker span, in order of appearance. -/
def findIds (s : Chars) : List String := findIdsAux s.length s

/-- Association-list lookup with first-match semantics (Python `dict`
lookup / `.get`). -/
def dictGet {α : Type} (m : List (String × α)) (k : String) : Option α :=
  match m with
  | [] => none
  | (k', v) :: t => if k' = k then some v else dictGet t k

/-- `defaultdict(list)` access-and-extend: `links[k].extend(vs)` creates
the key (even for empty `vs`) or appends to the existing list. -/
def extendKey (m : List (String × List String)) (k : String) (vs : List String) :
    List (String × List String) :=
  match m with
  | [] => [(k, vs)]
  | (k', v') :: t =>
    if k' = k then (k', v' ++ vs) :: t else (k', v') :: extendKey t k vs

/-- The six `(pattern, link_type)` pairs of `parse_links`, in source
order. -/
def patternList : List (Marker × String) :=
  [(⟨"Formal Requirement", true⟩, "requirements"),
   (⟨"Requirement", true⟩, "requirements"),
   (⟨"Related ADR", true⟩, "adrs"),
   (⟨"Related Analyse", true⟩, "analyses"),
   (⟨"Design", false⟩, "design"),
   (⟨"Plan", false⟩, "plan")]

/-- `TDLDocument.parse_links` on successfully read text: isolate the first
Links section, then search each category pattern once and extend its
category with the identifiers of the first match's span. -/
def parse_links_content (content : Chars) : List (String × List String) :=
  match linksSearch content with
  | none => []
  | some lc =>
    patternList.foldl
      (fun links p =>
        match markerSearch p.1 lc with
        | some span => extendKey links p.2 (findIds span)
        | none => links)
      []

/-- `TDLDocument.parse_links`: a failed read raises before any link is
accumulated, so the `except` branch returns the empty map. -/
def parse_links (content : Except String String) : List (String × List String) :=
  match content with
  | .error _ => []
  | .ok text => parse_links_content text.toList

/-- The warning printed by `parse_links`'s `except` branch:
`Warning: Failed to parse {path}: {e}`. -/
def warnMsg (path e : String) : String :=
  "Warning: Failed to parse " ++ path ++ ": " ++ e

/-- Diagnostic-stream output of `parse_links` for one file. -/
def parse_links_warnings (path : String) (content : Except String String) :
    List String :=
  match content with
  | .error e => [warnMsg path e]
  | .ok _ => []

/-- `TDLDocument.extract_id`: `re.match` of `^([A-Z]+-[^-]+)` — maximal
leading uppercase run, a hyphen, then a maximal nonempty hyphen-free run;
on failure the identifier is the whole filename. -/
def extract_id (filename : String) : String :=
  let (u, r1) := runOf Char.isUpper filename.toList
  if u.isEmpty then filename
  else
    match r1 with
    | '-' :: r2 =>
      let (v, _) := runOf (fun c => c != '-') r2
      if v.isEmpty then filename else String.mk (u ++ '-' :: v)
    | _ => filename

/-- `TDLDocument.extract_type`: case-sensitive filename-prefix dispatch. -/
def extract_type (filename : String) : String :=
  if begMatch "AN-".toList filename.toList then "analysis"
  else if begMatch "FR-".toList filename.toList then "requirement"
  else if begMatch "NFR-".toList filename.toList then "requirement"
  else if begMatch "ADR-".toList filename.toList then "adr"
  else if begMatch "T-".toList filename.toList then "task"
  else "unknown"

/-- Maximal non-newline prefix (`.+` without DOTALL, cut at `$`). -/
def takeLine (s : Chars) : Chars := (runOf (fun c => c != '\n') s).1

/-- Python `str.strip`: remove leading and trailing whitespace. -/
def stripStr (s : Chars) : Chars :=
  ((s.dropWhile isWs).reverse.dropWhile isWs).reverse

/-- Tail of the status pattern, `\s*(.+)$`, attempted after a
`- Status:` literal: greedy whitespace, then at least one non-newline
character up to end of line.  When only whitespace remains, the greedy
`\s*` backtracks onto a non-newline whitespace character if one exists
(the captured value then strips to the empty string); otherwise the
attempt fails. -/
def statusValAt (t : Chars) : Option String :=
  let (w, r) := runOf isWs t
  match r with
  | [] => if w.any (fun c => c != '\n') then some "" else none
  | _ => some (String.mk (stripStr (takeLine r)))

/-- `re.search` of `^- Status:\s*(.+)$` in MULTILINE mode: scan left to
right, attempting the pattern at every line start. -/
def statusScan : Chars → Bool → Option String
  | s, atStart =>
    match
      (if atStart && begMatch "- Status:".toList s then statusValAt (s.drop 9)
       else none) with
    | some v => some v
    | none =>
      match s with
      | [] => none
      | c :: t => statusScan t (c = '\n')

/-- `TDLDocument.extract_status`: first `- Status:` line's trimmed value;
`Unknown` when absent or when reading the file raised. -/
def extract_status (content : Except String String) : String :=
  match content with
  | .error _ => "Unknown"
  | .ok text =>
    match statusScan text.toList true with
    | some v => v
    | none => "Unknown"

/-- One parsed document (`TDLDocument`). -/
structure TDLDocument where
  path : String
  filename : String
  doc_id : String
  doc_type : String
  links : List (String × List String)
  status : String

/-- The identifier-indexed corpus (`self.documents`, a Python dict in
insertion order). -/
abbrev Corpus := List (String × TDLDocument)

/-- A candidate file as seen by the loader: its full path, bare filename,
and the result of reading its text (`Except.error` models a raised
text-processing exception). -/
structure FileEntry where
  path : String
  name : String
  content : Except String String

/-- `TDLDocument.__init__`: derive every field from the filename and the
file text. -/
def mkDocument (f : FileEntry) : TDLDocument :=
  { path := f.path
    filename := f.name
    doc_id := extract_id f.name
    doc_type := extract_type f.name
    links := parse_links f.content
    status := extract_status f.content }

/-- The loader's skip test: path contains `traceability.md` or
`templates/` as a substring. -/
def skipFile (f : FileEntry) : Bool :=
  segIn "traceability.md".toList f.path.toList ||
  segIn "templates/".toList f.path.toList

/-- Python dict assignment `m[k] = v`: replace in place when the key
exists, append otherwise. -/
def dictInsert {α : Type} (m : List (String × α)) (k : String) (v : α) :
    List (String × α) :=
  match m with
  | [] => [(k, v)]
  | (k', v') :: t =>
    if k' = k then (k, v) :: t else (k', v') :: dictInsert t k v

/-- One loop iteration of `load_documents`: skip excluded paths, parse
the rest, insert keyed by document id. -/
def loadStep (acc : Corpus) (f : FileEntry) : Corpus :=
  if skipFile f then acc
  else dictInsert acc (mkDocument f).doc_id (mkDocument f)

/-- `TraceabilityAnalyzer.load_documents` over an already-enumerated file
list (later insertion overwrites earlier on identifier collision). -/
def load_documents (files : List FileEntry) : Corpus :=
  files.foldl loadStep []

/-- `TraceabilityAnalyzer.find_implementing_tasks`: iterate the corpus in
order, appending the key of every task whose `requirements` link list
contains `req_id`. -/
def find_implementing_tasks (docs : Corpus) (req_id : String) : List String :=
  docs.foldl
    (fun tasks kd =>
      if kd.2.doc_type = "task" ∧
          req_id ∈ (dictGet kd.2.links "requirements").getD [] then
        tasks ++ [kd.1]
      else tasks)
    []

/-- `TraceabilityAnalyzer.find_orphan_requirements`: requirements whose
implementing-task list is empty, in corpus order. -/
def find_orphan_requirements (docs : Corpus) : List String :=
  docs.foldl
    (fun orphans kd =>
      if kd.2.doc_type = "requirement" ∧
          find_implementing_tasks docs kd.1 = [] then
        orphans ++ [kd.1]
      else orphans)
    []

/-- Python truthiness of `doc.links.get('requirements')`: falsy when the
key is absent (`None`) or maps to the empty list. -/
def linksFalsy (o : Option (List String)) : Bool :=
  match o with
  | none => true
  | some l => l.isEmpty

/-- `TraceabilityAnalyzer.find_orphan_tasks`: tasks whose `requirements`
link list is absent or empty, in corpus order. -/
def find_orphan_tasks (docs : Corpus) : List String :=
  docs.foldl
    (fun orphans kd =>
      if kd.2.doc_type = "task" ∧ linksFalsy (dictGet kd.2.links "requirements") then
        orphans ++ [kd.1]
      else orphans)
    []

/-- The value object returned by `calculate_coverage` (percentage kept as
an exact rational; the Python float arithmetic `c / r * 100` is exact at
the 0 and 100 endpoints the spec pins down). -/
structure Coverage where
  total_requirements : Nat
  total_tasks : Nat
  total_analyses : Nat
  total_adrs : Nat
  requirements_with_tasks : Nat
  coverage_percentage : ℚ

/-- `TraceabilityAnalyzer.calculate_coverage`. -/
def calculate_coverage (docs : Corpus) : Coverage :=
  let requirements := (docs.map Prod.snd).filter (fun d => d.doc_type = "requirement")
  let tasks := (docs.map Prod.snd).filter (fun d => d.doc_type = "task")
  let analyses := (docs.map Prod.snd).filter (fun d => d.doc_type = "analysis")
  let adrs := (docs.map Prod.snd).filter (fun d => d.doc_type = "adr")
  let req_with_tasks :=
    requirements.countP (fun r => !(find_implementing_tasks docs r.doc_id).isEmpty)
  { total_requirements := requirements.length
    total_tasks := tasks.length
    total_analyses := analyses.length
    total_adrs := adrs.length
    requirements_with_tasks := req_with_tasks
    coverage_percentage :=
      if requirements.isEmpty then 0
      else (req_with_tasks : ℚ) / (requirements.length : ℚ) * 100 }

/-- Strict lexicographic comparison of character lists by code point. -/
def charsLt : Chars → Chars → Bool
  | [], [] => false
  | [], _ :: _ => true
  | _ :: _, [] => false
  | a :: as, b :: bs =>
    if a.toNat < b.toNat then true
    else if b.toNat < a.toNat then false
    else charsLt as bs

/-- Lexicographic-by-code-point `≤` on strings (the comparison Python's
`sorted` uses on `str`): `a ≤ b` iff not `b < a`. -/
def strLe (a b : String) : Bool := !charsLt b.toList a.toList

/-- Insert into an already sorted list (the step of a stable sort). -/
def insertStr (x : String) : List String → List String
  | [] => [x]
  | y :: t => if strLe x y then x :: y :: t else y :: insertStr x t

/-- `sorted(...)` on a list of identifiers. -/
def sortStr : List String → List String
  | [] => []
  | x :: t => insertStr x (sortStr t)

/-- Boolean check that a list of identifiers is in nondecreasing order. -/
def sortedB : List String → Bool
  | [] => true
  | [_] => true
  | x :: y :: t => strLe x y && sortedB (y :: t)

/-- The orphan-requirement identifiers printed by `print_status`'s Gaps
block (full and gaps-only modes alike): sorted before display. -/
def print_gap_req_ids (docs : Corpus) : List String :=
  let orphan_reqs := find_orphan_requirements docs
  let orphan_tasks := find_orphan_tasks docs
  if orphan_reqs = [] ∧ orphan_tasks = [] then [] else sortStr orphan_reqs

/-- The orphan-task identifiers printed by `print_status`'s Gaps block:
sorted before display. -/
def print_gap_task_ids (docs : Corpus) : List String :=
  let orphan_reqs := find_orphan_requirements docs
  let orphan_tasks := find_orphan_tasks docs
  if orphan_reqs = [] ∧ orphan_tasks = [] then [] else sortStr orphan_tasks

/-- The identifiers `check_integrity` enumerates to stderr on failure:
orphan requirements then orphan tasks, each in corpus iteration order
(the source applies no sort here). -/
def check_gap_ids (docs : Corpus) : List String :=
  let orphan_reqs := find_orphan_requirements docs
  let orphan_tasks := find_orphan_tasks docs
  if orphan_reqs = [] ∧ orphan_tasks = [] then []
  else orphan_reqs ++ orphan_tasks

/-- `TraceabilityAnalyzer.check_integrity`: `False` when any orphan
exists, `True` otherwise. -/
def check_integrity (docs : Corpus) : Bool :=
  let orphan_reqs := find_orphan_requirements docs
  let orphan_tasks := find_orphan_tasks docs
  if orphan_reqs = [] ∧ orphan_tasks = [] then true else false

/-- `main`'s `--check` branch: exit 1 when `check_integrity` fails, else
print the confirmation and exit 0. -/
def check_mode_exit (docs : Corpus) : Nat :=
  if check_integrity docs then 0 else 1

/-- Whether the `--check` branch prints its success confirmation. -/
def check_mode_success_msg (docs : Corpus) : Bool := check_integrity docs

/-- The analyzer object: its only state is the loaded corpus
(`self.documents`). -/
structure TraceabilityAnalyzer where
  documents : Corpus

/-- The `find_implementing_tasks` method as a state transformer: it only
reads `self.documents`, so the analyzer comes back unchanged. -/
def implementing_tasks_q (a : TraceabilityAnalyzer) (req_id : String) :
    List String × TraceabilityAnalyzer :=
  (find_implementing_tasks a.documents req_id, a)

/-- The `find_orphan_requirements` method as a state transformer. -/
def orphan_requirements_q (a : TraceabilityAnalyzer) :
    List String × TraceabilityAnalyzer :=
  (find_orphan_requirements a.documents, a)

/-- The `find_orphan_tasks` method as a state transformer. -/
def orphan_tasks_q (a : TraceabilityAnalyzer) :
    List String × TraceabilityAnalyzer :=
  (find_orphan_tasks a.documents, a)

/-- The `calculate_coverage` method as a state transformer. -/
def coverage_q (a : TraceabilityAnalyzer) :
    Coverage × TraceabilityAnalyzer :=
  (calculate_coverage a.documents, a)

/-! Spec-side definitions, written from the specification's sentences, to
be compared with the code-side embeddings above. -/

/-- Modelled from the spec: "returns every document of type `task` whose
`requirements` link list contains `requirementId`, in corpus iteration
order (no additional sort)". -/
def implementingTasksSpec (docs : Corpus) (req_id : String) : List String :=
  (docs.filter
    (fun kd => kd.2.doc_type = "task" ∧
      req_id ∈ (dictGet kd.2.links "requirements").getD [])).map Prod.fst

/-- Modelled from the spec: "every document of type `requirement` for
which `implementingTasks` returns an empty result". -/
def orphanRequirementsSpec (docs : Corpus) : List String :=
  (docs.filter
    (fun kd => kd.2.doc_type = "requirement" ∧
      implementingTasksSpec docs kd.1 = [])).map Prod.fst

/-- Modelled from the spec: "every document of type `task` whose
`requirements` link list is absent or empty". -/
def orphanTasksSpec (docs : Corpus) : List String :=
  (docs.filter
    (fun kd => kd.2.doc_type = "task" ∧
      (dictGet kd.2.links "requirements" = none ∨
       dictGet kd.2.links "requirements" = some []))).map Prod.fst

/-- Number of corpus documents of a given type (spec side). -/
def numType (docs : Corpus) (t : String) : Nat :=
  ((docs.map Prod.snd).filter (fun d => d.doc_type = t)).length

/-- Spec side: the number of requirement documents with at least one
implementing task (the set `C`). -/
def coveredCount (docs : Corpus) : Nat :=
  ((docs.map Prod.snd).filter
    (fun d => d.doc_type = "requirement" ∧
      implementingTasksSpec docs d.doc_id ≠ [])).length

/-! Helper lemmas. -/

theorem foldl_append_filter {α β : Type} (p : α → Prop) [DecidablePred p]
    (g : α → β) (l : List α) :
    ∀ acc : List β,
      l.foldl (fun a x => if p x then a ++ [g x] else a) acc
        = acc ++ ((l.filter fun x => p x).map g) := by
  induction l with
  | nil => intro acc; simp
  | cons x t ih =>
    intro acc
    by_cases h : p x <;> simp [List.filter_cons, h, ih]

theorem fit_eq_spec (docs : Corpus) (req_id : String) :
    find_implementing_tasks docs req_id = implementingTasksSpec docs req_id := by
  unfold find_implementing_tasks implementingTasksSpec
  rw [foldl_append_filter
    (fun kd : String × TDLDocument =>
      kd.2.doc_type = "task" ∧ req_id ∈ (dictGet kd.2.links "requirements").getD [])
    Prod.fst docs []]
  simp

theorem for_eq_spec (docs : Corpus) :
    find_orphan_requirements docs = orphanRequirementsSpec docs := by
  unfold find_orphan_requirements orphanRequirementsSpec
  rw [foldl_append_filter
    (fun kd : String × TDLDocument =>
      kd.2.doc_type = "requirement" ∧ find_implementing_tasks docs kd.1 = [])
    Prod.fst docs []]
  simp only [List.nil_append]
  congr 1
  apply List.filter_congr
  intro kd _
  simp [fit_eq_spec]

theorem linksFalsy_eq_decide (o : Option (List String)) :
    linksFalsy o = decide (o = none ∨ o = some []) := by
  cases o with
  | none => rfl
  | some l => cases l <;> simp [linksFalsy]

theorem fot_eq_spec (docs : Corpus) :
    find_orphan_tasks docs = orphanTasksSpec docs := by
  unfold find_orphan_tasks orphanTasksSpec
  rw [foldl_append_filter
    (fun kd : String × TDLDocument =>
      kd.2.doc_type = "task" ∧ linksFalsy (dictGet kd.2.links "requirements"))
    Prod.fst docs []]
  simp only [List.nil_append]
  congr 1
  apply List.filter_congr
  intro kd _
  simp [linksFalsy_eq_decide]

theorem charsLt_asymm : ∀ a b : Chars, charsLt a b = true → charsLt b a = false := by
  intro a
  induction a with
  | nil =>
    intro b h
    cases b with
    | nil => simp [charsLt] at h
    | cons c t => simp [charsLt]
  | cons x xs ih =>
    intro b h
    cases b with
    | nil => simp [charsLt] at h
    | cons y ys =>
      by_cases hxy : x.toNat < y.toNat
      · have hyx : ¬ y.toNat < x.toNat := Nat.lt_asymm hxy
        simp [charsLt, hxy, hyx]
      · by_cases hyx : y.toNat < x.toNat
        · simp [charsLt, hxy, hyx] at h
        · simp [charsLt, hxy, hyx] at h ⊢
          exact ih ys h

theorem strLe_total (a b : String) : strLe a b = true ∨ strLe b a = true := by
  unfold strLe
  by_cases h : charsLt b.toList a.toList = true
  · right
    rw [charsLt_asymm b.toList a.toList h]
    rfl
  · left
    rw [Bool.not_eq_true] at h
    rw [h]
    rfl

theorem sortedB_insertStr (x : String) (l : List String)
    (h : sortedB l = true) : sortedB (insertStr x l) = true := by
  induction l with
  | nil => rfl
  | cons y t ih =>
    by_cases hxy : strLe x y = true
    · simp [insertStr, hxy, sortedB, h]
    · have hyx : strLe y x = true := (strLe_total x y).resolve_left hxy
      cases t with
      | nil => simp [insertStr, hxy, sortedB, hyx]
      | cons z t' =>
        have ht : sortedB (z :: t') = true := by
          simp [sortedB] at h
          exact h.2
        have hyz : strLe y z = true := by
          simp [sortedB] at h
          exact h.1
        have := ih ht
        by_cases hxz : strLe x z = true
        · simp [insertStr, hxy, hxz, sortedB, hyx] at this ⊢
          exact this
        · simp [insertStr, hxy, hxz, sortedB, hyz] at this ⊢
          exact this

theorem sortedB_sortStr (l : List String) : sortedB (sortStr l) = true := by
  induction l with
  | nil => rfl
  | cons x t ih => exact sortedB_insertStr x (sortStr t) ih

theorem insertStr_perm (x : String) (l : List String) :
    (insertStr x l).Perm (x :: l) := by
  induction l with
  | nil => simp [insertStr]
  | cons y t ih =>
    by_cases hxy : strLe x y = true
    · simp [insertStr, hxy]
    · simp only [insertStr, hxy, if_neg]
      exact (ih.cons y).trans (List.Perm.swap x y t)

theorem sortStr_perm (l : List String) : (sortStr l).Perm l := by
  induction l with
  | nil => simp [sortStr]
  | cons x t ih => exact (insertStr_perm x (sortStr t)).trans (ih.cons x)

theorem dictGet_dictInsert_self {α : Type} (m : List (String × α)) (k : String)
    (v : α) : dictGet (dictInsert m k v) k = some v := by
  induction m with
  | nil => simp [dictInsert, dictGet]
  | cons kv t ih =>
    by_cases h : kv.1 = k
    · simp [dictInsert, dictGet, h]
    · simp [dictInsert, dictGet, h, ih]

theorem dictGet_dictInsert_isSome {α : Type} (m : List (String × α))
    (k k' : String) (v : α) (h : (dictGet m k').isSome = true) :
    (dictGet (dictInsert m k v) k').isSome = true := by
  induction m with
  | nil => simp [dictGet] at h
  | cons kv t ih =>
    by_cases hk : kv.1 = k
    · by_cases hk' : k = k'
      · simp [dictInsert, dictGet, hk, hk']
      · simp [dictGet, hk ▸ hk'] at h
        simp [dictInsert, dictGet, hk, hk', h]
    · by_cases hk' : kv.1 = k'
      · have hkk : ¬ k' = k := by rw [← hk']; exact hk
        simp [dictInsert, dictGet, hk, hk', hkk]
      · simp [dictGet, hk'] at h
        simp [dictInsert, dictGet, hk, hk', ih h]

theorem mem_dictInsert {α : Type} (m : List (String × α)) (k : String) (v : α)
    (kd : String × α) (h : kd ∈ dictInsert m k v) : kd = (k, v) ∨ kd ∈ m := by
  induction m with
  | nil => simp [dictInsert] at h; simp [h]
  | cons kv t ih =>
    by_cases hk : kv.1 = k
    · simp [dictInsert, hk] at h
      rcases h with h | h
      · exact Or.inl h
      · exact Or.inr (List.mem_cons_of_mem kv h)
    · simp [dictInsert, hk] at h
      rcases h with h | h
      · exact Or.inr (h ▸ List.mem_cons_self kv t)
      · rcases ih h with h' | h'
        · exact Or.inl h'
        · exact Or.inr (List.mem_cons_of_mem kv h')

theorem map_fst_dictInsert_isSome {α : Type} (m : List (String × α))
    (k : String) (v : α) (h : (dictGet m k).isSome = true) :
    (dictInsert m k v).map Prod.fst = m.map Prod.fst := by
  induction m with
  | nil => simp [dictGet] at h
  | cons kv t ih =>
    by_cases hk : kv.1 = k
    · simp [dictInsert, hk]
    · simp [dictGet, hk] at h
      simp [dictInsert, hk, ih h]

theorem map_fst_dictInsert_none {α : Type} (m : List (String × α))
    (k : String) (v : α) (h : dictGet m k = none) :
    (dictInsert m k v).map Prod.fst = m.map Prod.fst ++ [k] := by
  induction m with
  | nil => simp [dictInsert]
  | cons kv t ih =>
    by_cases hk : kv.1 = k
    · simp [dictGet, hk] at h
    · simp [dictGet, hk] at h
      simp [dictInsert, hk, ih h]

theorem dictGet_none_iff_not_mem {α : Type} (m : List (String × α))
    (k : String) : dictGet m k = none ↔ k ∉ m.map Prod.fst := by
  induction m with
  | nil => simp [dictGet]
  | cons kv t ih =>
    by_cases hk : kv.1 = k
    · simp [dictGet, hk]
    · simp [dictGet, hk, ih, Ne.symm hk]

theorem nodup_map_fst_dictInsert {α : Type} (m : List (String × α))
    (k : String) (v : α) (h : (m.map Prod.fst).Nodup) :
    ((dictInsert m k v).map Prod.fst).Nodup := by
  cases hg : dictGet m k with
  | some w =>
    rw [map_fst_dictInsert_isSome m k v (by simp [hg])]
    exact h
  | none =>
    rw [map_fst_dictInsert_none m k v hg]
    have hk : k ∉ m.map Prod.fst := (dictGet_none_iff_not_mem m k).mp hg
    simp [List.nodup_append, h, hk]

theorem foldl_loadStep_filter (files : List FileEntry) :
    ∀ acc : Corpus,
      files.foldl loadStep acc
        = (files.filter fun f => !skipFile f).foldl loadStep acc := by
  induction files with
  | nil => intro acc; rfl
  | cons f t ih =>
    intro acc
    by_cases h : skipFile f = true
    · simp [List.filter_cons, h, List.foldl_cons, loadStep, ih]
    · simp only [Bool.not_eq_true] at h
      simp [List.filter_cons, h, List.foldl_cons, loadStep, ih]

theorem dictGet_foldl_loadStep_isSome (files : List FileEntry) :
    ∀ (acc : Corpus) (k : String), (dictGet acc k).isSome = true →
      (dictGet (files.foldl loadStep acc) k).isSome = true := by
  induction files with
  | nil => intro acc k h; exact h
  | cons f t ih =>
    intro acc k h
    rw [List.foldl_cons]
    apply ih
    unfold loadStep
    by_cases hs : skipFile f = true
    · simp [hs, h]
    · simp only [Bool.not_eq_true] at hs
      simp [hs]
      exact dictGet_dictInsert_isSome acc (mkDocument f).doc_id k (mkDocument f) h

theorem load_registers (files : List FileEntry) :
    ∀ (acc : Corpus) (f : FileEntry), f ∈ files → skipFile f = false →
      (dictGet (files.foldl loadStep acc) (mkDocument f).doc_id).isSome = true := by
  induction files with
  | nil => intro acc f hf; exact absurd hf (List.not_mem_nil f)
  | cons g t ih =>
    intro acc f hf hskip
    rw [List.foldl_cons]
    rcases List.mem_cons.mp hf with hf | hf
    · subst hf
      apply dictGet_foldl_loadStep_isSome
      simp [loadStep, hskip, dictGet_dictInsert_self]
    · exact ih (loadStep acc g) f hf hskip

theorem load_inv (names : List String) (files : List FileEntry) :
    ∀ acc : Corpus,
      (∀ f ∈ files, f.name ∈ names) →
      (∀ kd ∈ acc, kd.1 ∈ names.map extract_id ∧
        kd.2.doc_type ∈ names.map extract_type) →
      (acc.map Prod.fst).Nodup →
      (∀ kd ∈ files.foldl loadStep acc, kd.1 ∈ names.map extract_id ∧
        kd.2.doc_type ∈ names.map extract_type) ∧
      ((files.foldl loadStep acc).map Prod.fst).Nodup := by
  induction files with
  | nil => intro acc _ hacc hnd; exact ⟨hacc, hnd⟩
  | cons f t ih =>
    intro acc hnames hacc hnd
    rw [List.foldl_cons]
    have hfname : f.name ∈ names := hnames f (List.mem_cons_self f t)
    have hstep_mem : ∀ kd ∈ loadStep acc f, kd.1 ∈ names.map extract_id ∧
        kd.2.doc_type ∈ names.map extract_type := by
      intro kd hkd
      unfold loadStep at hkd
      by_cases hs : skipFile f = true
      · rw [if_pos hs] at hkd
        exact hacc kd hkd
      · rw [if_neg hs] at hkd
        rcases mem_dictInsert acc (mkDocument f).doc_id (mkDocument f) kd hkd with
          h | h
        · subst h
          refine ⟨List.mem_map.mpr ⟨f.name, hfname, rfl⟩,
            List.mem_map.mpr ⟨f.name, hfname, rfl⟩⟩
        · exact hacc kd h
    have hstep_nd : ((loadStep acc f).map Prod.fst).Nodup := by
      unfold loadStep
      by_cases hs : skipFile f = true
      · rw [if_pos hs]; exact hnd
      · rw [if_neg hs]
        exact nodup_map_fst_dictInsert acc (mkDocument f).doc_id (mkDocument f) hnd
    exact ih (loadStep acc f) (fun g hg => hnames g (List.mem_cons_of_mem f hg))
      hstep_mem hstep_nd

theorem begMatch_append (l r : Chars) : begMatch l (l ++ r) = true := by
  induction l with
  | nil => rfl
  | cons c t ih => simp [begMatch, ih]

theorem segIn_of_begMatch (pat s : Chars) (h : begMatch pat s = true) :
    segIn pat s = true := by
  cases s with
  | nil => simpa [segIn] using h
  | cons c t => simp [segIn, h]

theorem segIn_cons (pat s : Chars) (c : Char) (h : segIn pat s = true) :
    segIn pat (c :: s) = true := by
  cases s with
  | nil =>
    simp [segIn] at h ⊢
    exact Or.inr h
  | cons d t => simp [segIn] at h ⊢; tauto

theorem segIn_mid (pat pre suf : Chars) :
    segIn pat (pre ++ (pat ++ suf)) = true := by
  induction pre with
  | nil =>
    rw [List.nil_append]
    exact segIn_of_begMatch pat (pat ++ suf) (begMatch_append pat suf)
  | cons c pre' ih =>
    rw [List.cons_append]
    exact segIn_cons pat (pre' ++ (pat ++ suf)) c ih

theorem covered_eq (docs : Corpus) :
    ((docs.map Prod.snd).filter (fun d => d.doc_type = "requirement")).countP
        (fun r => !(find_implementing_tasks docs r.doc_id).isEmpty)
      = coveredCount docs := by
  unfold coveredCount
  rw [List.countP_eq_length_filter, List.filter_filter]
  congr 1
  apply List.filter_congr
  intro d _
  by_cases h1 : d.doc_type = "requirement" <;>
    by_cases h2 : implementingTasksSpec docs d.doc_id = [] <;>
      simp [h1, h2, fit_eq_spec, List.isEmpty_iff]

theorem coverage_percentage_eq (docs : Corpus) :
    (calculate_coverage docs).coverage_percentage =
      if numType docs "requirement" = 0 then 0
      else (coveredCount docs : ℚ) / (numType docs "requirement" : ℚ) * 100 := by
  show (if ((docs.map Prod.snd).filter fun d => d.doc_type = "requirement").isEmpty
          then (0 : ℚ)
          else (((docs.map Prod.snd).filter
                  (fun d => d.doc_type = "requirement")).countP
                 (fun r => !(find_implementing_tasks docs r.doc_id).isEmpty) : ℚ)
            / (((docs.map Prod.snd).filter
                  fun d => d.doc_type = "requirement").length : ℚ) * 100)
        = _
  rw [covered_eq docs]
  simp only [List.isEmpty_iff_length_eq_zero]
  rfl

/-! Concrete corpus snapshots and files for scenarios, counterexamples and
witnesses. -/

/-- A hand-built corpus document for concrete scenarios. -/
def sampleDoc (id ty : String) (links : List (String × List String)) :
    TDLDocument :=
  { path := id, filename := id, doc_id := id, doc_type := ty, links := links,
    status := "Unknown" }

/-- Scenario corpus: one requirement and one task implementing it. -/
def covCorpus : Corpus :=
  [("FR-0001", sampleDoc "FR-0001" "requirement" []),
   ("T-0001", sampleDoc "T-0001" "task" [("requirements", ["FR-0001"])])]

/-- Scenario corpus: two orphan requirements in reverse-sorted corpus
order. -/
def unsortedCorpus : Corpus :=
  [("FR-0002", sampleDoc "FR-0002" "requirement" []),
   ("FR-0001", sampleDoc "FR-0001" "requirement" [])]

/-- Scenario corpus: a single task with an empty link map. -/
def lonelyTask : Corpus := [("T-0002", sampleDoc "T-0002" "task" [])]

/-- A tasks-collection file (name exactly `plan.md`). -/
def planFile : FileEntry :=
  { path := "docs/tasks/T-0001-setup/plan.md", name := "plan.md",
    content := Except.ok "" }

/-- A file whose text processing raises. -/
def badFile : FileEntry :=
  { path := "docs/requirements/FR-0abc-broken.md", name := "FR-0abc-broken.md",
    content := Except.error "boom" }

/-- Links body containing only the `Formal Requirements:` marker. -/
def c1FormalOnly : String := "## Links\nFormal Requirements: FR-0001\n"

/-- Links body containing both a `Formal Requirements:` and a standalone
`Requirements:` marker. -/
def c1BothMarkers : String :=
  "## Links\nFormal Requirements: FR-0001\n- Requirements: FR-0002\n"

/-- Links body containing only the `Requirements:` marker. -/
def c1PlainReq : String := "## Links\nRequirements: FR-0001\n"

theorem toList_app (a b : String) : (a ++ b).toList = a.toList ++ b.toList := by
  cases a
  cases b
  rfl

/-! The claims. -/

/-- C1 (counterexample): the claim fails on the code.  For a Links section
containing only `Formal Requirements: FR-0001` (and no separate
`Requirements:` occurrence), `re.search` of `Requirements?:` still matches
the substring embedded inside `Formal Requirements:`, so `FR-0001` lands
in `requirements` twice, not exactly once; and when both markers are
present the `Requirements?:` pattern's first match is again the embedded
occurrence, so the standalone span's `FR-0002` is not concatenated. -/
theorem claim_C1_counterexample :
    ¬ ((((dictGet (parse_links_content c1FormalOnly.toList)
            "requirements").getD []).count "FR-0001" = 1) ∧
       "FR-0002" ∈ (dictGet (parse_links_content c1BothMarkers.toList)
            "requirements").getD []) := by
  decide

/-- C1 (amended): each of the six category markers is searched once and
the identifiers of its first match's span are appended in order; however
the `Requirements?:` pattern also matches the occurrence embedded inside
`Formal Requirements:`, so a Links section containing only
`Formal Requirements: FR-0001` yields `requirements = [FR-0001, FR-0001]`
(both patterns contribute the same span), a section with both markers
yields the Formal span twice while the standalone `Requirements:` span
contributes nothing, and a section with only `Requirements: FR-0001`
yields `[FR-0001]`. -/
theorem claim_C1_amended :
    dictGet (parse_links_content c1FormalOnly.toList) "requirements"
        = some ["FR-0001", "FR-0001"] ∧
    dictGet (parse_links_content c1BothMarkers.toList) "requirements"
        = some ["FR-0001", "FR-0001"] ∧
    dictGet (parse_links_content c1PlainReq.toList) "requirements"
        = some ["FR-0001"] :=
  ⟨rfl, rfl, rfl⟩

/-- C3: `find_implementing_tasks` returns every type-`task` document
whose `requirements` link list contains the requirement id, in corpus
iteration order with no additional sort, and `find_orphan_requirements`
returns exactly the type-`requirement` documents for which that lookup is
empty. -/
theorem claim_C3 (docs : Corpus) (req_id : String) :
    find_implementing_tasks docs req_id = implementingTasksSpec docs req_id ∧
    find_orphan_requirements docs = orphanRequirementsSpec docs :=
  ⟨fit_eq_spec docs req_id, for_eq_spec docs⟩

/-- C5: `find_orphan_tasks` returns exactly the type-`task` documents
whose `requirements` link list is absent or empty; in particular a task
document with an empty link map is reported as an orphan task. -/
theorem claim_C5 (docs : Corpus) :
    find_orphan_tasks docs = orphanTasksSpec docs ∧
    find_orphan_tasks lonelyTask = ["T-0002"] :=
  ⟨fot_eq_spec docs, rfl⟩

/-- C9: a file whose path contains `traceability.md` or `templates/` is
skipped and never inserted into the corpus: loading any file list gives
exactly the corpus of its non-skipped sublist. -/
theorem claim_C9 (files : List FileEntry) :
    load_documents files
      = load_documents (files.filter fun f => !skipFile f) :=
  foldl_loadStep_filter files []

/-- C10: every analyzer query is a pure function of the corpus snapshot:
running it leaves the analyzer unchanged and running it twice returns
identical results. -/
theorem claim_C10 (a : TraceabilityAnalyzer) (req_id : String) :
    implementing_tasks_q a req_id
        = implementing_tasks_q (implementing_tasks_q a req_id).2 req_id ∧
    (implementing_tasks_q a req_id).2 = a ∧
    orphan_requirements_q a
        = orphan_requirements_q (orphan_requirements_q a).2 ∧
    (orphan_requirements_q a).2 = a ∧
    orphan_tasks_q a = orphan_tasks_q (orphan_tasks_q a).2 ∧
    (orphan_tasks_q a).2 = a ∧
    coverage_q a = coverage_q (coverage_q a).2 ∧
    (coverage_q a).2 = a :=
  ⟨rfl, rfl, rfl, rfl, rfl, rfl, rfl, rfl⟩

/-- C6 (counterexample): the claim fails on the code.  In check mode the
offending identifiers are enumerated in corpus iteration order, not
sorted: for a corpus listing `FR-0002` before `FR-0001` the diagnostic
enumeration is unsorted. -/
theorem claim_C6_counterexample :
    ¬ (sortedB (check_gap_ids unsortedCorpus) = true) := by
  decide

/-- C6 (amended): the orphan identifiers printed in full and gaps-only
report modes are explicitly sorted by identifier (each printed list equals
the sort of the corresponding orphan list and is a sorted permutation of
it), but the identifiers enumerated to the diagnostic stream in check
mode are in corpus iteration order, with no sort applied. -/
theorem claim_C6_amended (docs : Corpus) :
    print_gap_req_ids docs = sortStr (find_orphan_requirements docs) ∧
    sortedB (print_gap_req_ids docs) = true ∧
    (print_gap_req_ids docs).Perm (find_orphan_requirements docs) ∧
    print_gap_task_ids docs = sortStr (find_orphan_tasks docs) ∧
    sortedB (print_gap_task_ids docs) = true ∧
    (print_gap_task_ids docs).Perm (find_orphan_tasks docs) ∧
    check_gap_ids docs
      = find_orphan_requirements docs ++ find_orphan_tasks docs := by
  have hr : print_gap_req_ids docs = sortStr (find_orphan_requirements docs) := by
    show (if find_orphan_requirements docs = [] ∧ find_orphan_tasks docs = []
          then [] else sortStr (find_orphan_requirements docs)) = _
    by_cases h : find_orphan_requirements docs = [] ∧ find_orphan_tasks docs = []
    · rw [if_pos h, h.1]
      rfl
    · rw [if_neg h]
  have ht : print_gap_task_ids docs = sortStr (find_orphan_tasks docs) := by
    show (if find_orphan_requirements docs = [] ∧ find_orphan_tasks docs = []
          then [] else sortStr (find_orphan_tasks docs)) = _
    by_cases h : find_orphan_requirements docs = [] ∧ find_orphan_tasks docs = []
    · rw [if_pos h, h.2]
      rfl
    · rw [if_neg h]
  have hc : check_gap_ids docs
      = find_orphan_requirements docs ++ find_orphan_tasks docs := by
    show (if find_orphan_requirements docs = [] ∧ find_orphan_tasks docs = []
          then []
          else find_orphan_requirements docs ++ find_orphan_tasks docs) = _
    by_cases h : find_orphan_requirements docs = [] ∧ find_orphan_tasks docs = []
    · rw [if_pos h, h.1, h.2]
      rfl
    · rw [if_neg h]
  refine ⟨hr, ?_, ?_, ht, ?_, ?_, hc⟩
  · rw [hr]
    exact sortedB_sortStr _
  · rw [hr]
    exact sortStr_perm _
  · rw [ht]
    exact sortedB_sortStr _
  · rw [ht]
    exact sortStr_perm _

/-- C7: check mode passes iff both orphan sets are empty; the process
exits with code 1 when any orphan exists and 0 otherwise, printing the
confirmation message exactly on success. -/
theorem claim_C7 (docs : Corpus) :
    (check_integrity docs = true ↔
      (find_orphan_requirements docs = [] ∧ find_orphan_tasks docs = [])) ∧
    (check_mode_exit docs = 1 ↔
      ¬ (find_orphan_requirements docs = [] ∧ find_orphan_tasks docs = [])) ∧
    (check_mode_exit docs = 0 ↔
      (find_orphan_requirements docs = [] ∧ find_orphan_tasks docs = [])) ∧
    (check_mode_success_msg docs = true ↔ check_mode_exit docs = 0) := by
  have hci : check_integrity docs = true ↔
      (find_orphan_requirements docs = [] ∧ find_orphan_tasks docs = []) := by
    show (if find_orphan_requirements docs = [] ∧ find_orphan_tasks docs = []
          then true else false) = true ↔ _
    by_cases h : find_orphan_requirements docs = [] ∧ find_orphan_tasks docs = []
    · simp [h]
    · simp [h]
  refine ⟨hci, ?_, ?_, ?_⟩ <;>
    · simp only [check_mode_exit, check_mode_success_msg]
      by_cases h : find_orphan_requirements docs = []
          ∧ find_orphan_tasks docs = []
      · simp [hci.mpr h, h]
      · have hfalse : check_integrity docs = false := by
          cases hcv : check_integrity docs
          · rfl
          · exact absurd (hci.mp hcv) h
        simp [hfalse, h]

/-- C4: `calculate_coverage` returns the counts of requirement, task,
analysis and adr documents, the number of requirements with at least one
implementing task, and a percentage equal to that number divided by the
requirement count times 100, with the percentage 0 when there are no
requirements and 100 when every requirement has an implementing task. -/
theorem claim_C4 (docs : Corpus) :
    (calculate_coverage docs).total_requirements = numType docs "requirement" ∧
    (calculate_coverage docs).total_tasks = numType docs "task" ∧
    (calculate_coverage docs).total_analyses = numType docs "analysis" ∧
    (calculate_coverage docs).total_adrs = numType docs "adr" ∧
    (calculate_coverage docs).requirements_with_tasks = coveredCount docs ∧
    (calculate_coverage docs).coverage_percentage =
      (if numType docs "requirement" = 0 then 0
       else (coveredCount docs : ℚ) / (numType docs "requirement" : ℚ) * 100) ∧
    (numType docs "requirement" = 0 →
      (calculate_coverage docs).coverage_percentage = 0) ∧
    (0 < numType docs "requirement" →
      coveredCount docs = numType docs "requirement" →
      (calculate_coverage docs).coverage_percentage = 100) := by
  refine ⟨rfl, rfl, rfl, rfl, covered_eq docs, coverage_percentage_eq docs,
    ?_, ?_⟩
  · intro h0
    rw [coverage_percentage_eq docs, if_pos h0]
  · intro hpos hcv
    have hne : (numType docs "requirement" : ℚ) ≠ 0 := by
      exact_mod_cast Nat.pos_iff_ne_zero.mp hpos
    rw [coverage_percentage_eq docs, if_neg (Nat.pos_iff_ne_zero.mp hpos), hcv,
      div_self hne]
    norm_num

/-- C4 witness: for the scenario corpus with one requirement implemented
by one task, the coverage percentage is 100 and the requirement count is
1. -/
theorem claim_C4_witness :
    (calculate_coverage covCorpus).coverage_percentage = 100 ∧
    (calculate_coverage covCorpus).total_requirements = 1 := by
  have h := claim_C4 covCorpus
  refine ⟨h.2.2.2.2.2.2.2 (by decide) (by decide), ?_⟩
  rw [h.1]
  decide

/-- C7 witness: the scenario corpus with no orphans passes check mode
with exit code 0. -/
theorem claim_C7_witness :
    check_integrity covCorpus = true ∧ check_mode_exit covCorpus = 0 := by
  have h := claim_C7 covCorpus
  have hr : find_orphan_requirements covCorpus = [] := by decide
  have ht : find_orphan_tasks covCorpus = [] := by decide
  exact ⟨h.1.mpr ⟨hr, ht⟩, h.2.2.1.mpr ⟨hr, ht⟩⟩

/-- C2: every file discovered through the tasks collection is named
exactly `plan.md` or `design.md`, so its document id equals its bare
filename and its type is `unknown` (never `task`); consequently all such
files collide onto at most two corpus keys. -/
theorem claim_C2 (files : List FileEntry)
    (h : ∀ f ∈ files, f.name = "plan.md" ∨ f.name = "design.md") :
    (∀ f ∈ files, (mkDocument f).doc_id = f.name ∧
      (mkDocument f).doc_type = "unknown" ∧ (mkDocument f).doc_type ≠ "task") ∧
    (∀ kd ∈ load_documents files,
      (kd.1 = "plan.md" ∨ kd.1 = "design.md") ∧ kd.2.doc_type = "unknown") ∧
    (load_documents files).length ≤ 2 := by
  have hper : ∀ f ∈ files, (mkDocument f).doc_id = f.name ∧
      (mkDocument f).doc_type = "unknown" ∧ (mkDocument f).doc_type ≠ "task" := by
    intro f hf
    rcases h f hf with hn | hn <;>
      · rw [show (mkDocument f).doc_id = extract_id f.name from rfl,
            show (mkDocument f).doc_type = extract_type f.name from rfl, hn]
        refine ⟨?_, ?_, ?_⟩ <;> decide
  have hnames : ∀ f ∈ files, f.name ∈ ["plan.md", "design.md"] := by
    intro f hf
    rcases h f hf with hn | hn <;> simp [hn]
  have hinv := load_inv ["plan.md", "design.md"] files []
    hnames (fun kd hkd => absurd hkd (List.not_mem_nil kd)) List.nodup_nil
  have hmapid : (["plan.md", "design.md"].map extract_id)
      = ["plan.md", "design.md"] := by decide
  have hmapty : (["plan.md", "design.md"].map extract_type)
      = ["unknown", "unknown"] := by decide
  refine ⟨hper, ?_, ?_⟩
  · intro kd hkd
    have hm := hinv.1 kd hkd
    rw [hmapid, hmapty] at hm
    simp only [List.mem_cons, List.mem_singleton, List.not_mem_nil,
      or_false] at hm
    exact ⟨hm.1, hm.2.elim id id⟩
  · have hsub : (load_documents files).map Prod.fst ⊆ ["plan.md", "design.md"] := by
      intro k hk
      rcases List.mem_map.mp hk with ⟨kd, hkd, hfst⟩
      have hm := (hinv.1 kd hkd).1
      rw [hmapid] at hm
      rw [← hfst]
      exact hm
    have hlen := (List.Nodup.subperm hinv.2 hsub).length_le
    rw [List.length_map] at hlen
    simpa using hlen

/-- C2 witness: a single `plan.md` file under the tasks tree loads to a
corpus entry with id `plan.md` and type `unknown`, within the two-key
bound. -/
theorem claim_C2_witness :
    (mkDocument planFile).doc_id = "plan.md" ∧
    (mkDocument planFile).doc_type = "unknown" ∧
    (load_documents [planFile]).length ≤ 2 := by
  have h := claim_C2 [planFile]
    (fun f hf => by
      rw [List.mem_singleton] at hf
      rw [hf]
      exact Or.inl rfl)
  have hf := h.1 planFile (List.mem_singleton.mpr rfl)
  exact ⟨hf.1, hf.2.1, h.2.2⟩

/-- C8: a file whose text processing raises is caught and reported as a
warning identifying the offending path, and the document is still
registered in the corpus with status `Unknown` and an empty link map; the
run continues. -/
theorem claim_C8 (f : FileEntry) (e : String) (files : List FileEntry)
    (he : f.content = Except.error e) (hmem : f ∈ files)
    (hskip : skipFile f = false) :
    (mkDocument f).status = "Unknown" ∧
    (mkDocument f).links = [] ∧
    parse_links_warnings f.path f.content = [warnMsg f.path e] ∧
    segIn f.path.toList (warnMsg f.path e).toList = true ∧
    (dictGet (load_documents files) (mkDocument f).doc_id).isSome = true := by
  refine ⟨?_, ?_, ?_, ?_, ?_⟩
  · show extract_status f.content = "Unknown"
    rw [he]
    rfl
  · show parse_links f.content = []
    rw [he]
    rfl
  · rw [he]
    rfl
  · have hdec : (warnMsg f.path e).toList
        = "Warning: Failed to parse ".toList
          ++ (f.path.toList ++ (": ".toList ++ e.toList)) := by
      unfold warnMsg
      rw [toList_app, toList_app, toList_app, List.append_assoc,
        List.append_assoc]
    rw [hdec]
    exact segIn_mid f.path.toList "Warning: Failed to parse ".toList
      (": ".toList ++ e.toList)
  · exact load_registers files [] f hmem hskip

/-- C8 witness: a requirement file whose read fails is still registered,
with status `Unknown`, empty links, and a warning naming its path. -/
theorem claim_C8_witness :
    (mkDocument badFile).status = "Unknown" ∧
    (mkDocument badFile).links = [] ∧
    parse_links_warnings badFile.path badFile.content
      = [warnMsg badFile.path "boom"] ∧
    segIn badFile.path.toList (warnMsg badFile.path "boom").toList = true ∧
    (dictGet (load_documents [badFile]) (mkDocument badFile).doc_id).isSome
      = true :=
  claim_C8 badFile "boom" [badFile] rfl (List.mem_singleton.mpr rfl) (by decide)
